import Mathlib

/-!
# Arduino thermostat firmware: shallow embedding of `Project/Project.cpp`

The firmware's global variables become the fields of `Sys`; every interrupt
service routine and every helper of the source file becomes a function on
`Sys` (or on the part of the machine it touches).

Conventions
* `uint8_t` variables are `Nat` with an explicit `% 256` at every store or
  increment, `uint64_t` variables are `Nat` with an explicit `% 2 ^ 64`.
* A `float` object is its 32-bit pattern (a `Nat` below `2 ^ 32`) wherever the
  bytes matter (the EEPROM store), and the rational number it denotes
  (`float32Val`) wherever it is computed with. Every float operation of the
  source is the exact operation followed by `round32`, the rounding to the
  nearest binary32 value (ties to even); `double` is the 32-bit type of the
  AVR compiler. A result beyond the finite range (an infinity) or a division
  by zero is a `Fault`: it reaches the conversion to `uint8_t`, which is then
  undefined.
* Hardware inputs (the ADC sample, the `PIND` port, the bytes arriving on the
  UART) are arguments of the functions that read them.
* Busy-wait loops on hardware status flags (`EEPE`, `ADSC`) and the fixed
  delays are not modelled; the UART busy-wait for a byte is modelled by
  `Option`: no byte ever arriving means the handler does not return.
* Register configuration (`DDRx`, `ADMUX`, `EIMSK`, timer prescalers) and the
  LCD output are outside the modelled state.
-/

namespace Thermostat

/-! ## Constants and enumerations -/

/-- Button 1 pin, `#define SW1 PD3`. -/
def SW1 : Nat := 3

/-- Button 2 pin, `#define SW2 PD2`. -/
def SW2 : Nat := 2

/-- UART command code `#define timeConfig 0x10`. -/
def timeConfig : Nat := 0x10

/-- UART command code `#define requestTemp 0x20`. -/
def requestTemp : Nat := 0x20

/-- UART command code `#define requestThreshold 0x30`. -/
def requestThreshold : Nat := 0x30

/-- The display state machine, `enum State`. -/
inductive State where
  | TimeDisplay
  | ThresholdDisplay
  | TemperatureDisplay
  deriving DecidableEq

/-- The alternation of the main loop, `enum Acquisition`. -/
inductive Acquisition where
  | ReadTemperature
  | ReadThreshold
  deriving DecidableEq

/-- Ways in which the actuator computation leaves defined behaviour. -/
inductive Fault where
  /-- the divisor of `(temperature * 255.0) / getThreshold()` is zero -/
  | divisionByZero
  /-- the value converted to `uint8_t` has no representation in `0..255` -/
  | castOutOfRange
  /-- an infinity or a NaN arises (an overflowing operation, a persisted NaN
  pattern) and reaches the conversion to `uint8_t` -/
  | notFinite
  deriving DecidableEq

/-- The global variables of the firmware, the EEPROM cells, the local
`nextAcquisition` of `main`, and the two PWM registers the loop writes. -/
structure Sys where
  /-- `volatile uint8_t hour` -/
  hour : Nat
  /-- `volatile uint8_t minute` -/
  minute : Nat
  /-- `volatile uint8_t second` -/
  second : Nat
  /-- `volatile float temperature`, as the number the float denotes -/
  temperature : ℚ
  /-- `volatile enum State state` -/
  state : State
  /-- `volatile uint64_t timer1InterruptSinceStartup` -/
  timer1InterruptSinceStartup : Nat
  /-- `volatile uint64_t lastTimeSinceButtonPressed` -/
  lastTimeSinceButtonPressed : Nat
  /-- the EEPROM, one byte per address -/
  eeprom : Nat → Nat
  /-- the local `nextAcquisition` of `main` -/
  nextAcquisition : Acquisition
  /-- the PWM compare register `OCR2A` -/
  OCR2A : Nat
  /-- the `CS21` bit of `TCCR2B`: the PWM clock source is running -/
  CS21 : Bool

/-! ## Clock -/

/-- First statement of `correctTime`: `if(second >= 60) { minute++; second = 0; }`. -/
def carrySecond (s : Sys) : Sys :=
  if s.second ≥ 60 then { s with minute := (s.minute + 1) % 256, second := 0 } else s

/-- Second statement of `correctTime`: `if(minute >= 60) { hour++; minute = 0; }`. -/
def carryMinute (s : Sys) : Sys :=
  if s.minute ≥ 60 then { s with hour := (s.hour + 1) % 256, minute := 0 } else s

/-- Third statement of `correctTime`: `if(hour >= 24) { hour = 0; }`. -/
def carryHour (s : Sys) : Sys :=
  if s.hour ≥ 24 then { s with hour := 0 } else s

/-- The function `correctTime`: its three `if` statements in sequence. -/
def correctTime (s : Sys) : Sys :=
  carryHour (carryMinute (carrySecond s))

/-- The statement `timer1InterruptSinceStartup++` of the tick handler. -/
def countTick (s : Sys) : Sys :=
  { s with timer1InterruptSinceStartup := (s.timer1InterruptSinceStartup + 1) % 2 ^ 64 }

/-- The condition `timer1InterruptSinceStartup%4 == 0` of the tick handler. -/
def fourthTick (s : Sys) : Bool :=
  s.timer1InterruptSinceStartup % 4 == 0

/-- The statement `second++` of the tick handler. -/
def incrementSecond (s : Sys) : Sys :=
  { s with second := (s.second + 1) % 256 }

/-- The handler `ISR(TIMER1_OVF_vect)`. -/
def TIMER1_OVF_vect (s : Sys) : Sys :=
  let s1 := countTick s
  if fourthTick s1 then correctTime (incrementSecond s1) else s1

/-- The handler `ISR(TIMER1_OVF_vect)` invoked `n` times in a row. -/
def ticks : Nat → Sys → Sys
  | 0, s => s
  | n + 1, s => ticks n (TIMER1_OVF_vect s)

/-- How many of `n` consecutive invocations of the tick handler, started in
`s`, execute the statement `second++`. -/
def secondIncrements : Nat → Sys → Nat
  | 0, _ => 0
  | n + 1, s =>
    (if fourthTick (countTick s) then 1 else 0) + secondIncrements n (TIMER1_OVF_vect s)

/-- The time of day in seconds shown by the clock fields. -/
def timeOfDay (s : Sys) : Nat :=
  s.hour * 3600 + s.minute * 60 + s.second

/-- The clock fields are within their ranges. -/
def Normalized (s : Sys) : Prop :=
  s.hour ≤ 23 ∧ s.minute ≤ 59 ∧ s.second ≤ 59

instance (s : Sys) : Decidable (Normalized s) := by
  unfold Normalized; infer_instance

/-! ## Buttons -/

/-- The handler `ISR(INT0_vect)` (button 2, threshold menu); `pind` is the
value read from the port `PIND`. -/
def INT0_vect (pind : Nat) (s : Sys) : Sys :=
  if s.lastTimeSinceButtonPressed = s.timer1InterruptSinceStartup then s
  else
    let s1 := { s with lastTimeSinceButtonPressed := s.timer1InterruptSinceStartup }
    if pind &&& (1 <<< SW2) = 0 then
      if s1.state = State.ThresholdDisplay then { s1 with state := State.TimeDisplay }
      else { s1 with state := State.ThresholdDisplay }
    else s1

/-- The handler `ISR(INT1_vect)` (button 1, temperature menu); `pind` is the
value read from the port `PIND`. -/
def INT1_vect (pind : Nat) (s : Sys) : Sys :=
  if s.lastTimeSinceButtonPressed = s.timer1InterruptSinceStartup then s
  else
    let s1 := { s with lastTimeSinceButtonPressed := s.timer1InterruptSinceStartup }
    if pind &&& (1 <<< SW1) = 0 then
      if s1.state = State.TemperatureDisplay then { s1 with state := State.TimeDisplay }
      else { s1 with state := State.TemperatureDisplay }
    else s1

/-! ## Persistent threshold store -/

/-- The function `EEPROM_write`: store the byte `ucData` at `uiAddress`. -/
def EEPROM_write (uiAddress : Nat) (ucData : Nat) (mem : Nat → Nat) : Nat → Nat :=
  fun a => if a = uiAddress then ucData % 256 else mem a

/-- The function `EEPROM_read`: the byte at `uiAddress`. -/
def EEPROM_read (uiAddress : Nat) (mem : Nat → Nat) : Nat :=
  mem uiAddress % 256

/-- The function `float2Bytes`: the four bytes of the float object, in memory
order (least significant byte first on the AVR). -/
def float2Bytes (float_variable : Nat) : List Nat :=
  (List.range 4).map fun i => float_variable / 256 ^ i % 256

/-- The reinterpretation `*(float *)&thresholdArray` of four bytes in memory
order as a float object. -/
def bytes2Float (thresholdArray : List Nat) : Nat :=
  ((List.range 4).map fun i => thresholdArray.getD i 0 % 256 * 256 ^ i).sum

/-- The sequence of calls `EEPROM_write(i, thresholdArray[i])` that the loop
of `setThreshold` performs, as (address, byte) pairs in program order. -/
def setThresholdWrites (threshold : Nat) : List (Nat × Nat) :=
  let thresholdArray := float2Bytes threshold
  (List.range 4).map fun i => (i, thresholdArray.getD i 0)

/-- The function `setThreshold`. -/
def setThreshold (threshold : Nat) (mem : Nat → Nat) : Nat → Nat :=
  (setThresholdWrites threshold).foldl (fun m w => EEPROM_write w.1 w.2 m) mem

/-- The sequence of addresses `i` of the calls `EEPROM_read(i)` that the loop
of `getThreshold` performs, in program order. -/
def getThresholdReads : List Nat :=
  List.range 4

/-- The function `getThreshold`. -/
def getThreshold (mem : Nat → Nat) : Nat :=
  bytes2Float (getThresholdReads.map fun i => EEPROM_read i mem)

/-! ## Float patterns and the analog inputs -/

/-- The exact value of a 32-bit float pattern in the binary32 layout the
compiler uses for `float` (sign bit, 8 exponent bits with bias 127, 23
fraction bits); `none` for the infinities and the NaNs. -/
def float32Val (v : Nat) : Option ℚ :=
  let sign : Nat := v / 2 ^ 31 % 2
  let e : Nat := v / 2 ^ 23 % 256
  let m : Nat := v % 2 ^ 23
  if e = 255 then none
  else
    let mag : ℚ :=
      if e = 0 then (m : ℚ) / 2 ^ 149 else ((2 ^ 23 + m : ℚ)) * 2 ^ e / 2 ^ 150
    some (if sign = 1 then -mag else mag)

/-- The binary32 pattern of the non-negative dyadic number `n / 2 ^ k`, for a
numerator below `2 ^ 24` (no rounding) and a result in the normal range. -/
def float32OfDyadic (n k : Nat) : Nat :=
  if n = 0 then 0
  else
    let e := Nat.log2 n
    (127 + e - k) * 2 ^ 23 + (n * 2 ^ (23 - e) - 2 ^ 23)

/-- Rounding of a rational to an integer, to the nearest, ties to the even
integer. -/
def roundHalfEven (x : ℚ) : ℤ :=
  let f : ℤ := ⌊x⌋
  if x - f < 1 / 2 then f
  else if 1 / 2 < x - f then f + 1
  else if f % 2 = 0 then f else f + 1

/-- The binary exponent of the binade of a positive `a`, `⌊log₂ a⌋`, held at
`-126` in the subnormal range. -/
def binade (a : ℚ) : ℤ :=
  max (Int.log 2 a) (-126)

/-- The binary32 rounding of an exact result: the nearest multiple of the unit
in the last place `2 ^ (binade |x| - 23)`, ties to the even multiple, with the
sign of `x`. The exponent is not bounded above here; `fround` reports a result
beyond the finite range. -/
def round32 (x : ℚ) : ℚ :=
  let e := binade |x|
  let ulp : ℚ := 2 ^ (e - 23)
  let r : ℚ := (roundHalfEven (|x| / ulp) : ℚ) * ulp
  if x < 0 then -r else r

/-- The result of a float operation with exact result `x`: the rounded value,
or an infinity when the rounded value leaves the finite range. -/
def fround (x : ℚ) : Except Fault ℚ :=
  if |round32 x| < 2 ^ 128 then .ok (round32 x) else .error .notFinite

/-- The function `ADCRead`: the 10-bit conversion result register `ADC`, for
the conversion result `sample` the hardware delivers. -/
def ADCRead (sample : Nat) : Nat :=
  sample % 1024

/-- The function `convertTemperature`: `(float)adc / 1024`, then `*= 1.1` with
the literal `1.1` rounded to binary32, then `* 100`, each operation rounded.
No operand comes near the finite range's end for an `adc` of 16 bits. -/
def convertTemperature (adc : Nat) : ℚ :=
  let temperature := round32 ((adc : ℚ) / 1024)
  let temperature := round32 (temperature * round32 (11 / 10))
  round32 (temperature * 100)

/-- The argument `(ADCRead() * 40.0) / 1024.0` of the call of `setThreshold`
in `main`, as the float pattern passed: `adc * 40` is below `2 ^ 24` and
`1024 = 2 ^ 10`, so the quotient is a float without rounding. -/
def thresholdCandidate (adc : Nat) : Nat :=
  float32OfDyadic (adc * 40) 10

/-! ## Actuator -/

/-- The float division `a / b`: a zero divisor gives an infinity or a NaN and
is reported as such; otherwise the rounded quotient. -/
def divide (a b : ℚ) : Except Fault ℚ :=
  if b = 0 then .error .divisionByZero else fround (a / b)

/-- The conversion `(uint8_t)x`: truncation toward zero, defined when the
truncated value is one of `0..255`. -/
def castU8 (x : ℚ) : Except Fault Nat :=
  if -1 < x ∧ x < 256 then .ok (Int.toNat (Int.tdiv x.num x.den))
  else .error .castOutOfRange

/-- The value the block `// Handle PWM` of `main` writes to `OCR2A`, for the
current `temperature` and the value `threshold` that `getThreshold()` returns:
`0` in the first branch, `(uint8_t)(255.0 - ((temperature * 255.0) / threshold))`
in the second, the product, the quotient and the difference each rounded to
binary32. -/
def pwmRatio (temperature threshold : ℚ) : Except Fault Nat :=
  if temperature > threshold then .ok 0
  else do
    let p ← fround (temperature * 255)
    let q ← divide p threshold
    let x ← fround (255 - q)
    castU8 x

/-- The block `// Handle PWM` of `main`: both calls of `getThreshold()` read
the same EEPROM cells; the first branch writes `OCR2A = 0` and clears `CS21`,
the second sets `CS21` and writes the ratio. For a persisted pattern that is
not a finite number: the temperature exceeds minus infinity (first branch); it
does not exceed plus infinity, and a finite product divided by plus infinity is
zero, so the ratio is 255; a NaN compares false and reaches the conversion. -/
def handlePWM (s : Sys) : Except Fault Sys :=
  match float32Val (getThreshold s.eeprom) with
  | some threshold => do
    let ocr ← pwmRatio s.temperature threshold
    .ok { s with OCR2A := ocr, CS21 := !decide (s.temperature > threshold) }
  | none =>
    if getThreshold s.eeprom = 0xFF800000 then .ok { s with OCR2A := 0, CS21 := false }
    else if getThreshold s.eeprom = 0x7F800000 then do
      let _ ← fround (s.temperature * 255)
      .ok { s with OCR2A := 255, CS21 := true }
    else .error .notFinite

/-- The `switch(nextAcquisition)` of the main loop; `sample` is the conversion
result the ADC delivers if it is read in this iteration. -/
def acquire (sample : Nat) (s : Sys) : Sys :=
  match s.nextAcquisition with
  | .ReadTemperature =>
    { s with temperature := convertTemperature (ADCRead sample),
             nextAcquisition := .ReadThreshold }
  | .ReadThreshold =>
    let s1 :=
      if s.state = State.ThresholdDisplay then
        { s with eeprom := setThreshold (thresholdCandidate (ADCRead sample)) s.eeprom }
      else s
    { s1 with nextAcquisition := .ReadTemperature }

/-- One iteration of the `while(true)` loop of `main`: the acquisition, then
the PWM block (the display `switch` writes to the LCD only). -/
def mainLoopBody (sample : Nat) (s : Sys) : Except Fault Sys :=
  handlePWM (acquire sample s)

/-- The state `main` sets up before its loop, for the EEPROM content `mem`
found at power-up: the explicit assignments of `main`, `temperature`
zero-initialised as a global, `CS21` set by `pwm_init`. -/
def startup (mem : Nat → Nat) : Sys :=
  { hour := 0, minute := 0, second := 0, temperature := 0,
    state := State.TimeDisplay,
    timer1InterruptSinceStartup := 0, lastTimeSinceButtonPressed := 0,
    eeprom := mem, nextAcquisition := Acquisition.ReadTemperature,
    OCR2A := 0, CS21 := true }

/-- What can happen to the system between two instructions of interest: a
timer overflow, a button edge with the port value read by the handler, or one
iteration of the main loop with the conversion result of the ADC. -/
inductive Event where
  | tick
  | button2 (pind : Nat)
  | button1 (pind : Nat)
  | loop (sample : Nat)

/-- The effect of one event. -/
def step (e : Event) (s : Sys) : Except Fault Sys :=
  match e with
  | .tick => .ok (TIMER1_OVF_vect s)
  | .button2 pind => .ok (INT0_vect pind s)
  | .button1 pind => .ok (INT1_vect pind s)
  | .loop sample => mainLoopBody sample s

/-- The effect of a sequence of events, stopping at the first fault. -/
def run : List Event → Sys → Except Fault Sys
  | [], s => .ok s
  | e :: es, s => step e s >>= run es

/-! ## Serial command responder -/

/-- Modelled from the spec: the serial transport primitive
`USART_Transmit_String` of `uartLib/uart.hpp`, which is not among the source
files; "transmit a byte/string" puts the characters of the string on the line,
so the text transmitted by one call is the string itself. -/
def USART_Transmit_String (str : String) : String :=
  str

/-- The busy-wait `while(!(UCSR0A & (1<<RXC0)));` followed by the read of
`UDR0`: the next byte of the bytes `rx` still to arrive and the bytes after
it, `none` when no byte arrives any more (the wait does not end). -/
def waitByte (rx : List Nat) : Option (Nat × List Nat) :=
  match rx with
  | [] => none
  | b :: rest => some (b % 256, rest)

/-- The handler `ISR(USART_RX_vect)`. `udr0` is the byte in `UDR0` when the
interrupt is taken, `rx` the bytes that arrive after it; the result is the new
state, the text transmitted and the bytes not consumed. `dtostrf` is the
number formatting of the C library (value, width, precision), applied to the
exact value of a float, `none` for a pattern without one. -/
def USART_RX_vect (dtostrf : Option ℚ → Nat → Nat → String) (udr0 : Nat) (rx : List Nat)
    (s : Sys) : Option (Sys × String × List Nat) :=
  let cmd := udr0 % 256
  if cmd = timeConfig then do
    let (d0, rx1) ← waitByte rx
    let (d1, rx2) ← waitByte rx1
    let (d2, rx3) ← waitByte rx2
    some ({ s with hour := d0, minute := d1, second := d2 }, "", rx3)
  else if cmd = requestTemp then
    some (s, USART_Transmit_String (dtostrf (some s.temperature) 2 2), rx)
  else if cmd = requestThreshold then
    some (s, USART_Transmit_String (dtostrf (float32Val (getThreshold s.eeprom)) 2 2), rx)
  else
    some (s, USART_Transmit_String "Invalid command code", rx)

/-! ## The carry propagation of the design document -/

/-- The loop "while `second ≥ 60`, subtract 60 from second and increment
minute", with `fuel` bounding the number of iterations. -/
def specCarrySecond : Nat → Sys → Sys
  | 0, s => s
  | fuel + 1, s =>
    if s.second ≥ 60 then
      specCarrySecond fuel { s with second := s.second - 60, minute := (s.minute + 1) % 256 }
    else s

/-- The loop "while `minute ≥ 60`, subtract 60 from minute and increment
hour", with `fuel` bounding the number of iterations. -/
def specCarryMinute : Nat → Sys → Sys
  | 0, s => s
  | fuel + 1, s =>
    if s.minute ≥ 60 then
      specCarryMinute fuel { s with minute := s.minute - 60, hour := (s.hour + 1) % 256 }
    else s

/-- The loop "while `hour ≥ 24`, subtract 24 from hour", with `fuel` bounding
the number of iterations. -/
def specCarryHour : Nat → Sys → Sys
  | 0, s => s
  | fuel + 1, s =>
    if s.hour ≥ 24 then specCarryHour fuel { s with hour := s.hour - 24 } else s

/-- The carry propagation as the design document words it: the three loops in
sequence, each with as much fuel as the field it reduces (every iteration
lowers that field, so the loop ends before the fuel does). -/
def specCorrectTime (s : Sys) : Sys :=
  let s1 := specCarrySecond s.second s
  let s2 := specCarryMinute s1.minute s1
  specCarryHour s2.hour s2

/-! ## Concrete states used by the examples -/

/-- A clock whose `second` field holds 61, as the set-time command can store. -/
def clock61 : Sys :=
  { startup (fun _ => 0) with second := 61 }

/-- The state after a tick, a button-2 edge with the pin low, and another
tick: the threshold screen, with the debounce mark one tick old. -/
def thresholdScreen : Sys :=
  TIMER1_OVF_vect (INT0_vect 0 (TIMER1_OVF_vect (startup (fun _ => 0))))

/-- An EEPROM, erased to `0xFF`, into which the threshold 20.0 (pattern
`0x41A00000`) has been written. -/
def mem20 : Nat → Nat :=
  setThreshold 0x41A00000 (fun _ => 0xFF)

/-! ## Clock: range invariant -/

/-- Claim C4: for every content of `hour`, `minute` and `second`, the clock
left by `correctTime` has `second ≤ 59`, `minute ≤ 59` and `hour ≤ 23`. -/
theorem correctTime_in_range (s : Sys) :
    (correctTime s).second ≤ 59 ∧ (correctTime s).minute ≤ 59 ∧ (correctTime s).hour ≤ 23 := by
  unfold correctTime carryHour carryMinute carrySecond
  split_ifs <;> simp_all <;> omega

/-! ## Clock: comparison with the carry propagation of the design document -/

theorem specCarrySecond_of_lt (fuel : Nat) (s : Sys) (h : s.second < 60) :
    specCarrySecond fuel s = s := by
  cases fuel with
  | zero => rfl
  | succ n => rw [specCarrySecond, if_neg (by omega)]

theorem specCarryMinute_of_lt (fuel : Nat) (s : Sys) (h : s.minute < 60) :
    specCarryMinute fuel s = s := by
  cases fuel with
  | zero => rfl
  | succ n => rw [specCarryMinute, if_neg (by omega)]

theorem specCarryHour_of_lt (fuel : Nat) (s : Sys) (h : s.hour < 24) :
    specCarryHour fuel s = s := by
  cases fuel with
  | zero => rfl
  | succ n => rw [specCarryHour, if_neg (by omega)]

/-- The fuel of the seconds loop suffices: the loop condition is false at exit,
and the loop leaves `hour` alone. -/
theorem specCarrySecond_exit (fuel : Nat) (s : Sys) (h : s.second ≤ fuel) :
    (specCarrySecond fuel s).second < 60 ∧ (specCarrySecond fuel s).hour = s.hour := by
  induction fuel generalizing s with
  | zero => exact ⟨by simp only [specCarrySecond]; omega, rfl⟩
  | succ n ih =>
    rw [specCarrySecond]
    split_ifs with h60
    · exact ih _ (by simp only; omega)
    · exact ⟨by omega, rfl⟩

/-- The fuel of the minutes loop suffices, and the loop leaves `second` alone. -/
theorem specCarryMinute_exit (fuel : Nat) (s : Sys) (h : s.minute ≤ fuel) :
    (specCarryMinute fuel s).minute < 60 ∧ (specCarryMinute fuel s).second = s.second := by
  induction fuel generalizing s with
  | zero => exact ⟨by simp only [specCarryMinute]; omega, rfl⟩
  | succ n ih =>
    rw [specCarryMinute]
    split_ifs with h60
    · exact ih _ (by simp only; omega)
    · exact ⟨by omega, rfl⟩

/-- The fuel of the hours loop suffices, and the loop leaves `minute` and
`second` alone. -/
theorem specCarryHour_exit (fuel : Nat) (s : Sys) (h : s.hour ≤ fuel) :
    (specCarryHour fuel s).hour < 24 ∧ (specCarryHour fuel s).minute = s.minute ∧
      (specCarryHour fuel s).second = s.second := by
  induction fuel generalizing s with
  | zero => exact ⟨by simp only [specCarryHour]; omega, rfl, rfl⟩
  | succ n ih =>
    rw [specCarryHour]
    split_ifs with h24
    · exact ih _ (by simp only; omega)
    · exact ⟨by omega, rfl, rfl⟩

/-- The three loops of the design document run to their exits: every field of
the result is below its modulus. -/
theorem specCorrectTime_normalized (s : Sys) : Normalized (specCorrectTime s) := by
  unfold specCorrectTime
  simp only
  obtain ⟨a, _⟩ := specCarrySecond_exit s.second s le_rfl
  obtain ⟨b, b2⟩ := specCarryMinute_exit (specCarrySecond s.second s).minute _ le_rfl
  obtain ⟨c, c1, c2⟩ := specCarryHour_exit
    (specCarryMinute (specCarrySecond s.second s).minute (specCarrySecond s.second s)).hour _ le_rfl
  refine ⟨by omega, by omega, ?_⟩
  rw [c2, b2]; omega

theorem specCarrySecond_eq_carrySecond (s : Sys) (h : s.second ≤ 60) :
    specCarrySecond s.second s = carrySecond s := by
  by_cases h60 : s.second < 60
  · rw [specCarrySecond_of_lt _ _ h60, carrySecond, if_neg (by omega)]
  · have e : s.second = 60 := by omega
    have e2 : specCarrySecond s.second s = specCarrySecond (59 + 1) s := by rw [e]
    rw [e2, specCarrySecond, if_pos (by omega), specCarrySecond_of_lt _ _ (by simp [e]),
      carrySecond, if_pos (by omega), e]

theorem specCarryMinute_eq_carryMinute (s : Sys) (h : s.minute ≤ 60) :
    specCarryMinute s.minute s = carryMinute s := by
  by_cases h60 : s.minute < 60
  · rw [specCarryMinute_of_lt _ _ h60, carryMinute, if_neg (by omega)]
  · have e : s.minute = 60 := by omega
    have e2 : specCarryMinute s.minute s = specCarryMinute (59 + 1) s := by rw [e]
    rw [e2, specCarryMinute, if_pos (by omega), specCarryMinute_of_lt _ _ (by simp [e]),
      carryMinute, if_pos (by omega), e]

theorem specCarryHour_eq_carryHour (s : Sys) (h : s.hour ≤ 24) :
    specCarryHour s.hour s = carryHour s := by
  by_cases h24 : s.hour < 24
  · rw [specCarryHour_of_lt _ _ h24, carryHour, if_neg (by omega)]
  · have e : s.hour = 24 := by omega
    have e2 : specCarryHour s.hour s = specCarryHour (23 + 1) s := by rw [e]
    rw [e2, specCarryHour, if_pos (by omega), specCarryHour_of_lt _ _ (by simp [e]),
      carryHour, if_pos (by omega), e]

/-- Claim C10, as stated, fails: with `second = 61` the code resets `second`
to 0 where the carry propagation of the design document leaves 1 (both
increment `minute`), so the two results differ. -/
theorem correctTime_not_carry_propagation :
    (correctTime clock61).second = 0 ∧ (specCorrectTime clock61).second = 1 ∧
      (correctTime clock61).minute = 1 ∧ (specCorrectTime clock61).minute = 1 ∧
      correctTime clock61 ≠ specCorrectTime clock61 := by
  refine ⟨by decide, by decide, by decide, by decide, ?_⟩
  intro h
  have h2 : (correctTime clock61).second = (specCorrectTime clock61).second := by rw [h]
  revert h2
  decide

/-- Claim C10, amended: `correctTime` is one pass of carry with reset. Its
`second` is 0 when the field was 60 or more and unchanged otherwise, and its
whole result equals the carry propagation of the design document whenever no
field exceeds its modulus when it is tested: `second ≤ 60` on entry,
`minute ≤ 60` after the seconds carry, `hour ≤ 24` after the minutes carry. -/
theorem correctTime_single_carry (s : Sys) :
    (correctTime s).second = (if 60 ≤ s.second then 0 else s.second) ∧
    (s.second ≤ 60 → (carrySecond s).minute ≤ 60 → (carryMinute (carrySecond s)).hour ≤ 24 →
      correctTime s = specCorrectTime s) := by
  constructor
  · unfold correctTime carryHour carryMinute carrySecond
    split_ifs <;> simp_all
  · intro hs hm hh
    unfold specCorrectTime correctTime
    simp only
    rw [specCarrySecond_eq_carrySecond s hs, specCarryMinute_eq_carryMinute _ hm,
      specCarryHour_eq_carryHour _ hh]

/-- Claim C10, amended, at 23:59:60: the code and the carry propagation both
give 00:00:00. -/
theorem correctTime_single_carry_witness :
    correctTime { startup (fun _ => 0) with hour := 23, minute := 59, second := 60 } =
      specCorrectTime { startup (fun _ => 0) with hour := 23, minute := 59, second := 60 } :=
  (correctTime_single_carry _).2 (by decide) (by decide) (by decide)

/-! ## Clock: four ticks to the second -/

theorem countTick_timer_mod (s : Sys) :
    (countTick s).timer1InterruptSinceStartup % 4 = (s.timer1InterruptSinceStartup + 1) % 4 := by
  simp only [countTick]
  omega

/-- The function `correctTime` touches the clock fields only. -/
theorem correctTime_frame (s : Sys) :
    (correctTime s).timer1InterruptSinceStartup = s.timer1InterruptSinceStartup ∧
      (correctTime s).lastTimeSinceButtonPressed = s.lastTimeSinceButtonPressed ∧
      (correctTime s).state = s.state := by
  unfold correctTime carryHour carryMinute carrySecond
  split_ifs <;> exact ⟨rfl, rfl, rfl⟩

/-- The tick handler advances the counter by one (modulo `2 ^ 64`) and leaves
the debounce mark and the display state alone. -/
theorem TIMER1_frame (s : Sys) :
    (TIMER1_OVF_vect s).timer1InterruptSinceStartup =
        (s.timer1InterruptSinceStartup + 1) % 2 ^ 64 ∧
      (TIMER1_OVF_vect s).lastTimeSinceButtonPressed = s.lastTimeSinceButtonPressed ∧
      (TIMER1_OVF_vect s).state = s.state := by
  unfold TIMER1_OVF_vect
  simp only
  split_ifs
  · exact correctTime_frame (incrementSecond (countTick s))
  · exact ⟨rfl, rfl, rfl⟩

theorem TIMER1_timer_mod (s : Sys) :
    (TIMER1_OVF_vect s).timer1InterruptSinceStartup % 4 =
      (s.timer1InterruptSinceStartup + 1) % 4 := by
  rw [(TIMER1_frame s).1]
  omega

/-- One `second++` followed by `correctTime` moves a normalized clock one
second forward, midnight included. -/
theorem advance_clock (s : Sys) (h : Normalized s) :
    Normalized (correctTime (incrementSecond s)) ∧
      timeOfDay (correctTime (incrementSecond s)) = (timeOfDay s + 1) % 86400 := by
  obtain ⟨h1, h2, h3⟩ := h
  unfold Normalized timeOfDay correctTime carryHour carryMinute carrySecond incrementSecond
  split_ifs <;> simp_all <;> omega

theorem TIMER1_clock (s : Sys) (h : Normalized s) :
    Normalized (TIMER1_OVF_vect s) ∧
      timeOfDay (TIMER1_OVF_vect s) =
        (timeOfDay s + (s.timer1InterruptSinceStartup % 4 + 1) / 4) % 86400 := by
  have hn : Normalized (countTick s) := h
  have ht : timeOfDay (countTick s) = timeOfDay s := rfl
  have hc := countTick_timer_mod s
  have hb : timeOfDay s < 86400 := by
    obtain ⟨h1, h2, h3⟩ := h
    unfold timeOfDay; omega
  unfold TIMER1_OVF_vect
  simp only [fourthTick, beq_iff_eq]
  split_ifs with h4
  · obtain ⟨a, b⟩ := advance_clock _ hn
    refine ⟨a, ?_⟩
    rw [b, ht]; omega
  · refine ⟨hn, ?_⟩
    rw [ht]; omega

/-- After `n` ticks a normalized clock is normalized and has advanced by the
number of multiples of four the counter has passed. -/
theorem ticks_clock (n : Nat) (s : Sys) (h : Normalized s) :
    Normalized (ticks n s) ∧
      timeOfDay (ticks n s) =
        (timeOfDay s + (s.timer1InterruptSinceStartup % 4 + n) / 4) % 86400 := by
  induction n generalizing s with
  | zero =>
    obtain ⟨h1, h2, h3⟩ := h
    refine ⟨⟨h1, h2, h3⟩, ?_⟩
    simp only [ticks, timeOfDay]; omega
  | succ n ih =>
    obtain ⟨a, b⟩ := TIMER1_clock s h
    obtain ⟨c, d⟩ := ih (TIMER1_OVF_vect s) a
    refine ⟨c, ?_⟩
    rw [ticks, d, b, TIMER1_timer_mod]
    omega

theorem secondIncrements_eq (n : Nat) (s : Sys) :
    secondIncrements n s = (s.timer1InterruptSinceStartup % 4 + n) / 4 := by
  induction n generalizing s with
  | zero => simp only [secondIncrements]; omega
  | succ n ih =>
    rw [secondIncrements, ih, TIMER1_timer_mod]
    have hc := countTick_timer_mod s
    simp only [fourthTick, beq_iff_eq]
    split_ifs with h4 <;> omega

/-- Claim C5: for every `t` and every state (so every value of the tick
counter), `4 * t` invocations of the tick handler execute `second++` exactly
`t` times; and when the clock is normalized at the start, the time of day
after these ticks is the initial time of day plus `t`, modulo 86400. -/
theorem four_ticks_one_second (t : Nat) (s : Sys) :
    secondIncrements (4 * t) s = t ∧
      (Normalized s → timeOfDay (ticks (4 * t) s) = (timeOfDay s + t) % 86400) := by
  constructor
  · rw [secondIncrements_eq]; omega
  · intro h
    rw [(ticks_clock (4 * t) s h).2]
    congr 2
    omega

/-- Claim C5 at 23:59:59 with the counter at 3: eight ticks are two seconds,
and the clock shows 00:00:01. -/
theorem four_ticks_one_second_witness :
    secondIncrements (4 * 2)
        { startup (fun _ => 0) with hour := 23, minute := 59, second := 59,
                                     timer1InterruptSinceStartup := 3 } = 2 ∧
      timeOfDay (ticks (4 * 2)
        { startup (fun _ => 0) with hour := 23, minute := 59, second := 59,
                                     timer1InterruptSinceStartup := 3 }) = (86399 + 2) % 86400 :=
  ⟨(four_ticks_one_second 2 _).1, (four_ticks_one_second 2 _).2 (by decide)⟩

/-! ## Buttons: debounce and display transitions -/

/-- Ticks move the counter (modulo `2 ^ 64`) and leave the debounce mark and
the display state alone. -/
theorem ticks_frame (n : Nat) (s : Sys) (h : s.timer1InterruptSinceStartup < 2 ^ 64) :
    (ticks n s).timer1InterruptSinceStartup = (s.timer1InterruptSinceStartup + n) % 2 ^ 64 ∧
      (ticks n s).lastTimeSinceButtonPressed = s.lastTimeSinceButtonPressed ∧
      (ticks n s).state = s.state := by
  induction n generalizing s with
  | zero => exact ⟨by simp only [ticks]; omega, rfl, rfl⟩
  | succ n ih =>
    obtain ⟨a, b, c⟩ := TIMER1_frame s
    obtain ⟨d, e, f⟩ := ih (TIMER1_OVF_vect s) (by rw [a]; omega)
    rw [ticks]
    refine ⟨?_, by rw [e, b], by rw [f, c]⟩
    rw [d, a]; omega

/-- A button-1 edge that passes the debounce test with the pin read low. -/
theorem INT1_accepted (pind : Nat) (s : Sys)
    (h : s.lastTimeSinceButtonPressed ≠ s.timer1InterruptSinceStartup)
    (hp : pind &&& (1 <<< SW1) = 0) :
    (INT1_vect pind s).state =
        (if s.state = State.TemperatureDisplay then State.TimeDisplay
         else State.TemperatureDisplay) ∧
      (INT1_vect pind s).lastTimeSinceButtonPressed = s.timer1InterruptSinceStartup ∧
      (INT1_vect pind s).timer1InterruptSinceStartup = s.timer1InterruptSinceStartup := by
  unfold INT1_vect
  rw [if_neg h]
  simp only [hp, if_true]
  split_ifs <;> exact ⟨rfl, rfl, rfl⟩

/-- A button-2 edge that passes the debounce test with the pin read low. -/
theorem INT0_accepted (pind : Nat) (s : Sys)
    (h : s.lastTimeSinceButtonPressed ≠ s.timer1InterruptSinceStartup)
    (hp : pind &&& (1 <<< SW2) = 0) :
    (INT0_vect pind s).state =
        (if s.state = State.ThresholdDisplay then State.TimeDisplay
         else State.ThresholdDisplay) ∧
      (INT0_vect pind s).lastTimeSinceButtonPressed = s.timer1InterruptSinceStartup ∧
      (INT0_vect pind s).timer1InterruptSinceStartup = s.timer1InterruptSinceStartup := by
  unfold INT0_vect
  rw [if_neg h]
  simp only [hp, if_true]
  split_ifs <;> exact ⟨rfl, rfl, rfl⟩

/-- A button-1 edge at the tick count of the debounce mark changes nothing. -/
theorem INT1_suppressed (pind : Nat) (s : Sys)
    (h : s.lastTimeSinceButtonPressed = s.timer1InterruptSinceStartup) :
    INT1_vect pind s = s := by
  unfold INT1_vect
  rw [if_pos h]

theorem toggle_ne (a b c : State) (h : a ≠ b) : (if c = a then b else a) ≠ c := by
  split_ifs with e
  · rw [e]; exact fun x => h x.symm
  · exact fun x => e x.symm

/-- Claim C6, as stated, fails at tick count 0: startup sets the debounce mark
and the tick counter both to 0, so before the first tick a button-1 edge with
the pin low is ignored. Two such edges at tick count 0 give no transition at
all; and of two edges at the tick counts 0 and 1 only the second gives one. -/
theorem first_edge_ignored :
    ((ticks 0 (startup (fun _ => 0))).timer1InterruptSinceStartup = 0 ∧
      0 &&& (1 <<< SW1) = 0 ∧
      (INT1_vect 0 (ticks 0 (startup (fun _ => 0)))).state =
        (ticks 0 (startup (fun _ => 0))).state ∧
      (INT1_vect 0 (INT1_vect 0 (ticks 0 (startup (fun _ => 0))))).state =
        (INT1_vect 0 (ticks 0 (startup (fun _ => 0)))).state) ∧
    ((ticks 1 (INT1_vect 0 (ticks 0 (startup (fun _ => 0))))).timer1InterruptSinceStartup = 1 ∧
      (INT1_vect 0 (ticks 0 (startup (fun _ => 0)))).state =
        (ticks 0 (startup (fun _ => 0))).state ∧
      (INT1_vect 0 (ticks 1 (INT1_vect 0 (ticks 0 (startup (fun _ => 0)))))).state ≠
        (ticks 1 (INT1_vect 0 (ticks 0 (startup (fun _ => 0))))).state) := by
  decide

/-- Claim C6, amended: from the startup state, after `n` ticks with the tick
counter not at 0 (the value startup gives the debounce mark), two button-1
edges with the pin read low and no tick between them produce exactly one
change of `state` (the first changes it, the second does not); and when `k`
further ticks bring the counter to a different value before the second edge,
both edges change `state`. -/
theorem debounce_button1 (mem : Nat → Nat) (n k pind pind2 : Nat)
    (hn : n % 2 ^ 64 ≠ 0) (hk : (n + k) % 2 ^ 64 ≠ n % 2 ^ 64)
    (hp : pind &&& (1 <<< SW1) = 0) (hp2 : pind2 &&& (1 <<< SW1) = 0) :
    ((INT1_vect pind (ticks n (startup mem))).state ≠ (ticks n (startup mem)).state ∧
      (INT1_vect pind2 (INT1_vect pind (ticks n (startup mem)))).state =
        (INT1_vect pind (ticks n (startup mem))).state) ∧
    ((INT1_vect pind (ticks n (startup mem))).state ≠ (ticks n (startup mem)).state ∧
      (INT1_vect pind2 (ticks k (INT1_vect pind (ticks n (startup mem))))).state ≠
        (ticks k (INT1_vect pind (ticks n (startup mem)))).state) := by
  obtain ⟨t0, l0, _⟩ := ticks_frame n (startup mem) (by simp [startup])
  have ht : (ticks n (startup mem)).timer1InterruptSinceStartup = n % 2 ^ 64 := by
    rw [t0]; simp [startup]
  have hl : (ticks n (startup mem)).lastTimeSinceButtonPressed = 0 := by
    rw [l0]; rfl
  have hacc : (ticks n (startup mem)).lastTimeSinceButtonPressed ≠
      (ticks n (startup mem)).timer1InterruptSinceStartup := by
    rw [ht, hl]; exact fun x => hn x.symm
  obtain ⟨e1, e2, e3⟩ := INT1_accepted pind _ hacc hp
  have first : (INT1_vect pind (ticks n (startup mem))).state ≠ (ticks n (startup mem)).state := by
    rw [e1]; exact toggle_ne _ _ _ (by decide)
  refine ⟨⟨first, ?_⟩, first, ?_⟩
  · rw [INT1_suppressed pind2 _ (by rw [e2, e3])]
  · obtain ⟨t1, l1, _⟩ := ticks_frame k (INT1_vect pind (ticks n (startup mem)))
      (by rw [e3, ht]; exact Nat.mod_lt _ (by norm_num))
    have hacc2 : (ticks k (INT1_vect pind (ticks n (startup mem)))).lastTimeSinceButtonPressed ≠
        (ticks k (INT1_vect pind (ticks n (startup mem)))).timer1InterruptSinceStartup := by
      rw [t1, l1, e2, e3, ht]
      intro x; apply hk; omega
    rw [(INT1_accepted pind2 _ hacc2 hp2).1]
    exact toggle_ne _ _ _ (by decide)

/-- Claim C6, amended, one tick after startup, the second pair of edges two
ticks apart. -/
theorem debounce_button1_witness :
    ((INT1_vect 0 (ticks 1 (startup (fun _ => 0)))).state ≠ (ticks 1 (startup (fun _ => 0))).state ∧
      (INT1_vect 0 (INT1_vect 0 (ticks 1 (startup (fun _ => 0))))).state =
        (INT1_vect 0 (ticks 1 (startup (fun _ => 0)))).state) ∧
    ((INT1_vect 0 (ticks 1 (startup (fun _ => 0)))).state ≠ (ticks 1 (startup (fun _ => 0))).state ∧
      (INT1_vect 0 (ticks 2 (INT1_vect 0 (ticks 1 (startup (fun _ => 0)))))).state ≠
        (ticks 2 (INT1_vect 0 (ticks 1 (startup (fun _ => 0))))).state) :=
  debounce_button1 (fun _ => 0) 1 2 0 0 (by decide) (by decide) (by decide) (by decide)

/-- Claim C7, as stated, fails: on the threshold screen an accepted button-1
edge (mark different from the counter, pin read low) takes `state` directly
from `ThresholdDisplay` to `TemperatureDisplay`. -/
theorem threshold_to_temperature :
    thresholdScreen.state = State.ThresholdDisplay ∧
    thresholdScreen.lastTimeSinceButtonPressed ≠ thresholdScreen.timer1InterruptSinceStartup ∧
    0 &&& (1 <<< SW1) = 0 ∧
    (INT1_vect 0 thresholdScreen).state = State.TemperatureDisplay := by
  decide

/-- Claim C7, amended: an accepted button-1 edge (debounce mark different from
the tick counter, pin read low) takes `TemperatureDisplay` to `TimeDisplay`
and each of the other two modes to `TemperatureDisplay`; an accepted button-2
edge takes `ThresholdDisplay` to `TimeDisplay` and each of the other two modes
to `ThresholdDisplay`. -/
theorem button_transitions (pind : Nat) (s : Sys)
    (h : s.lastTimeSinceButtonPressed ≠ s.timer1InterruptSinceStartup) :
    (pind &&& (1 <<< SW1) = 0 →
      (INT1_vect pind s).state =
        (if s.state = State.TemperatureDisplay then State.TimeDisplay
         else State.TemperatureDisplay)) ∧
    (pind &&& (1 <<< SW2) = 0 →
      (INT0_vect pind s).state =
        (if s.state = State.ThresholdDisplay then State.TimeDisplay
         else State.ThresholdDisplay)) :=
  ⟨fun hp => (INT1_accepted pind s h hp).1, fun hp => (INT0_accepted pind s h hp).1⟩

/-- Claim C7, amended, on the threshold screen with both pins read low:
button 1 leads to the temperature screen, button 2 back to the time screen. -/
theorem button_transitions_witness :
    (INT1_vect 0 thresholdScreen).state = State.TemperatureDisplay ∧
      (INT0_vect 0 thresholdScreen).state = State.TimeDisplay :=
  ⟨(button_transitions 0 thresholdScreen (by decide)).1 (by decide),
    (button_transitions 0 thresholdScreen (by decide)).2 (by decide)⟩

/-! ## Persistent threshold store: round trip -/

theorem getThreshold_setThreshold (v : Nat) (mem : Nat → Nat) (hv : v < 2 ^ 32) :
    getThreshold (setThreshold v mem) = v := by
  simp [getThreshold, setThreshold, setThresholdWrites, getThresholdReads, float2Bytes,
    bytes2Float, EEPROM_read, EEPROM_write, List.range, List.range.loop]
  omega

/-- Claim C3: for every 32-bit pattern `v` and every prior EEPROM content,
`getThreshold` after `setThreshold v` returns `v`; `setThreshold` writes the
four bytes of `v`, least significant first, to the addresses 0, 1, 2, 3 in this
order and to no other address, and `getThreshold` reads the addresses 0, 1, 2,
3 in this order. -/
theorem threshold_round_trip (v : Nat) (mem : Nat → Nat) (hv : v < 2 ^ 32) :
    getThreshold (setThreshold v mem) = v ∧
      setThresholdWrites v =
        [(0, v % 256), (1, v / 256 % 256), (2, v / 256 ^ 2 % 256), (3, v / 256 ^ 3 % 256)] ∧
      getThresholdReads = [0, 1, 2, 3] ∧
      (∀ a, 4 ≤ a → setThreshold v mem a = mem a) := by
  refine ⟨getThreshold_setThreshold v mem hv, ?_, rfl, ?_⟩
  · simp [setThresholdWrites, float2Bytes, List.range, List.range.loop]
  · intro a ha
    simp [setThreshold, setThresholdWrites, float2Bytes, EEPROM_write, List.range, List.range.loop]
    rw [if_neg (by omega), if_neg (by omega), if_neg (by omega), if_neg (by omega)]

/-- Claim C3 for the pattern `0x41A00000` of 20.0 and an erased EEPROM. -/
theorem threshold_round_trip_witness :
    getThreshold (setThreshold 0x41A00000 (fun _ => 0xFF)) = 0x41A00000 ∧
      setThresholdWrites 0x41A00000 = [(0, 0x00), (1, 0x00), (2, 0xA0), (3, 0x41)] :=
  ⟨(threshold_round_trip 0x41A00000 (fun _ => 0xFF) (by decide)).1,
    (threshold_round_trip 0x41A00000 (fun _ => 0xFF) (by decide)).2.1⟩

/-! ## Serial command responder -/

/-- Claim C8: for all bytes `h`, `m`, `sec`, the handler run on the frame
`[0x10, h, m, sec]` returns, has transmitted nothing and consumed exactly the
three bytes, and leaves `hour = h`, `minute = m`, `second = sec` with the
display state, the temperature, the EEPROM (so the persisted threshold), the
tick counter and the debounce mark unchanged. -/
theorem set_time_frame (dtostrf : Option ℚ → Nat → Nat → String) (h m sec : Nat)
    (rest : List Nat) (s : Sys) (hh : h < 256) (hm : m < 256) (hs : sec < 256) :
    ∃ s1, USART_RX_vect dtostrf 0x10 (h :: m :: sec :: rest) s = some (s1, "", rest) ∧
      s1.hour = h ∧ s1.minute = m ∧ s1.second = sec ∧
      s1.state = s.state ∧ s1.temperature = s.temperature ∧ s1.eeprom = s.eeprom ∧
      getThreshold s1.eeprom = getThreshold s.eeprom ∧
      s1.timer1InterruptSinceStartup = s.timer1InterruptSinceStartup ∧
      s1.lastTimeSinceButtonPressed = s.lastTimeSinceButtonPressed := by
  refine ⟨{ s with hour := h, minute := m, second := sec }, ?_, rfl, rfl, rfl, rfl, rfl, rfl, rfl,
    rfl, rfl⟩
  simp [USART_RX_vect, timeConfig, waitByte, Nat.mod_eq_of_lt hh, Nat.mod_eq_of_lt hm,
    Nat.mod_eq_of_lt hs]

/-- Claim C8 on the frame `[0x10, 5, 30, 0]`: the clock becomes 05:30:00. -/
theorem set_time_frame_witness :
    ∃ s1, USART_RX_vect (fun _ _ _ => "") 0x10 [5, 30, 0] (startup (fun _ => 0)) =
        some (s1, "", []) ∧
      s1.hour = 5 ∧ s1.minute = 30 ∧ s1.second = 0 := by
  obtain ⟨s1, a, b, c, d, _⟩ :=
    set_time_frame (fun _ _ _ => "") 5 30 0 [] (startup (fun _ => 0)) (by decide) (by decide)
      (by decide)
  exact ⟨s1, a, b, c, d⟩

/-- Claim C9: for every first byte other than `0x10`, `0x20` and `0x30` the
handler returns, has transmitted exactly "Invalid command code", has consumed
none of the bytes that follow, and leaves the whole state unchanged. -/
theorem invalid_command (dtostrf : Option ℚ → Nat → Nat → String) (b : Nat) (rx : List Nat)
    (s : Sys) (hb : b < 256) (h1 : b ≠ 0x10) (h2 : b ≠ 0x20) (h3 : b ≠ 0x30) :
    USART_RX_vect dtostrf b rx s = some (s, "Invalid command code", rx) := by
  simp [USART_RX_vect, timeConfig, requestTemp, requestThreshold, USART_Transmit_String,
    Nat.mod_eq_of_lt hb, h1, h2, h3]

/-- Claim C9 on the command byte `0x99`. -/
theorem invalid_command_witness :
    USART_RX_vect (fun _ _ _ => "") 0x99 [1, 2, 3] (startup (fun _ => 0)) =
      some (startup (fun _ => 0), "Invalid command code", [1, 2, 3]) :=
  invalid_command _ 0x99 _ _ (by decide) (by decide) (by decide) (by decide)

/-! ## Float patterns -/

theorem float32Val_zero : float32Val 0 = some 0 := by
  simp [float32Val]

theorem float32Val_twenty : float32Val 0x41A00000 = some 20 := by
  simp [float32Val]
  norm_num

/-- Integers round to themselves. -/
theorem roundHalfEven_intCast (n : ℤ) : roundHalfEven (n : ℚ) = n := by
  unfold roundHalfEven
  simp

theorem round32_of_nonneg {a : ℚ} (ha : 0 ≤ a) :
    round32 a = (roundHalfEven (a / 2 ^ (binade a - 23)) : ℚ) * 2 ^ (binade a - 23) := by
  unfold round32
  simp only [abs_of_nonneg ha]
  rw [if_neg (not_lt.mpr ha)]

theorem round32_zero : round32 0 = 0 := by
  simp [round32, roundHalfEven]

/-- A value with a significand below `2 ^ 24` and an exponent of the format
rounds to itself. -/
theorem round32_fix (n : ℕ) (j : ℤ) (hn : n < 2 ^ 24) (hj : -149 ≤ j) :
    round32 ((n : ℚ) * 2 ^ j) = (n : ℚ) * 2 ^ j := by
  rcases Nat.eq_zero_or_pos n with h0 | hpos
  · subst h0; simp [round32_zero]
  have hp : (0 : ℚ) < (n : ℚ) * 2 ^ j := by positivity
  have hlt : (n : ℚ) * 2 ^ j < 2 ^ (24 + j) := by
    rw [zpow_add₀ (by norm_num)]
    apply mul_lt_mul_of_pos_right _ (by positivity)
    exact_mod_cast hn
  have hlog : Int.log 2 ((n : ℚ) * 2 ^ j) < 24 + j := by
    apply (Int.lt_zpow_iff_log_lt (b := 2) (by norm_num) hp).mp
    exact_mod_cast hlt
  have he : binade ((n : ℚ) * 2 ^ j) ≤ 23 + j := by
    unfold binade
    apply max_le <;> omega
  rw [round32_of_nonneg hp.le]
  obtain ⟨d, hd⟩ : ∃ d : ℕ, j - (binade ((n : ℚ) * 2 ^ j) - 23) = d :=
    ⟨(j - (binade ((n : ℚ) * 2 ^ j) - 23)).toNat, by omega⟩
  have hq : (n : ℚ) * 2 ^ j / 2 ^ (binade ((n : ℚ) * 2 ^ j) - 23) = ((n * 2 ^ d : ℤ) : ℚ) := by
    rw [mul_div_assoc, ← zpow_sub₀ (by norm_num), hd, zpow_natCast]
    push_cast
    rfl
  rw [hq, roundHalfEven_intCast]
  push_cast
  rw [mul_assoc, ← zpow_natCast, ← zpow_add₀ (by norm_num), ← hd]
  congr 2
  ring

theorem round32_dyadic (n k : ℕ) (hn : n < 2 ^ 24) (hk : k ≤ 149) :
    round32 ((n : ℚ) / 2 ^ k) = (n : ℚ) / 2 ^ k := by
  have := round32_fix n (-(k : ℤ)) hn (by omega)
  rwa [zpow_neg, zpow_natCast, ← div_eq_mul_inv] at this

theorem fround_ok (x : ℚ) (h0 : -(2 ^ 128) < round32 x) (h1 : round32 x < 2 ^ 128) :
    fround x = .ok (round32 x) := by
  unfold fround
  rw [if_pos (abs_lt.mpr ⟨h0, h1⟩)]

/-- On its defined range the conversion to `uint8_t` is the floor, cut at 0. -/
theorem castU8_of_range (x : ℚ) (h0 : -1 < x) (h1 : x < 256) :
    castU8 x = .ok (Int.toNat ⌊x⌋) := by
  unfold castU8
  rw [if_pos ⟨h0, h1⟩]
  rcases le_or_lt 0 x with hx | hx
  · have hn : 0 ≤ x.num := Rat.num_nonneg.mpr hx
    rw [Int.tdiv_eq_ediv hn (by positivity), ← Rat.floor_def' x]
    rfl
  · have hn : x.num < 0 := Rat.num_neg.mpr hx
    have ht : Int.tdiv x.num x.den ≤ 0 := by
      have := Int.tdiv_nonneg (a := -x.num) (b := x.den) (by omega) (by positivity)
      rw [Int.neg_tdiv] at this
      omega
    have hf : ⌊x⌋ < 0 := by
      rw [Int.floor_lt]; exact_mod_cast hx
    rw [Int.toNat_of_nonpos ht, Int.toNat_of_nonpos hf.le]

/-- Evaluation of the second branch from the three rounded intermediate
results. -/
theorem pwmRatio_eval (T Th p q x : ℚ) (h : T ≤ Th) (hTh : Th ≠ 0)
    (hp : round32 (T * 255) = p) (hp0 : -(2 ^ 128) < p) (hp1 : p < 2 ^ 128)
    (hq : round32 (p / Th) = q) (hq0 : -(2 ^ 128) < q) (hq1 : q < 2 ^ 128)
    (hx : round32 (255 - q) = x) (hx0 : -1 < x) (hx1 : x < 256) :
    pwmRatio T Th = .ok (Int.toNat ⌊x⌋) := by
  unfold pwmRatio divide
  rw [if_neg (not_lt.mpr h), fround_ok _ (by rw [hp]; exact hp0) (by rw [hp]; exact hp1), hp]
  simp only [bind, Except.bind]
  rw [if_neg hTh, fround_ok _ (by rw [hq]; exact hq0) (by rw [hq]; exact hq1), hq]
  simp only
  rw [fround_ok _ (by rw [hx]; linarith) (by rw [hx]; linarith), hx]
  exact castU8_of_range x hx0 hx1

theorem pwmRatio_zero_twenty : pwmRatio 0 20 = .ok 255 := by
  have hx : round32 (255 - 0) = 255 := by
    have e := round32_dyadic 255 0 (by norm_num) (by norm_num)
    norm_num at e ⊢
    exact e
  have hf : ⌊(255 : ℚ)⌋ = 255 := by
    rw [Int.floor_eq_iff]; norm_num
  rw [pwmRatio_eval 0 20 0 0 255 (by norm_num) (by norm_num) (by rw [zero_mul, round32_zero])
    (by norm_num) (by norm_num) (by rw [zero_div, round32_zero]) (by norm_num) (by norm_num) hx
    (by norm_num) (by norm_num), hf]
  rfl

theorem pwmRatio_zero_zero : pwmRatio 0 0 = .error .divisionByZero := by
  unfold pwmRatio divide
  rw [if_neg (lt_irrefl _), fround_ok _ (by rw [zero_mul, round32_zero]; norm_num)
    (by rw [zero_mul, round32_zero]; norm_num)]
  simp only [bind, Except.bind, if_true]

/-- The PWM block when the persisted pattern has a value and the ratio is
defined: `OCR2A` receives the ratio, `CS21` is cleared exactly in the first
branch. -/
theorem handlePWM_eq (s : Sys) (threshold : ℚ) (d : Nat)
    (hv : float32Val (getThreshold s.eeprom) = some threshold)
    (hd : pwmRatio s.temperature threshold = .ok d) :
    handlePWM s = .ok { s with OCR2A := d, CS21 := !decide (s.temperature > threshold) } := by
  unfold handlePWM
  rw [hv]
  simp only [hd]
  rfl

theorem handlePWM_fault (s : Sys) (threshold : ℚ) (f : Fault)
    (hv : float32Val (getThreshold s.eeprom) = some threshold)
    (hd : pwmRatio s.temperature threshold = .error f) :
    handlePWM s = .error f := by
  unfold handlePWM
  rw [hv]
  simp only [hd]
  rfl

theorem convertTemperature_zero : convertTemperature (ADCRead 0) = 0 := by
  simp [convertTemperature, ADCRead, round32_zero]

theorem thresholdCandidate_zero : thresholdCandidate (ADCRead 0) = 0 := by
  simp [thresholdCandidate, ADCRead, float32OfDyadic]

/-- On the threshold screen, in the `ReadThreshold` phase, a conversion result
of 0 persists the pattern of 0.0. -/
theorem acquire_zero_threshold (s : Sys) (h1 : s.state = State.ThresholdDisplay)
    (h2 : s.nextAcquisition = Acquisition.ReadThreshold) :
    float32Val (getThreshold (acquire 0 s).eeprom) = some 0 := by
  unfold acquire
  rw [h2]
  simp only [h1, if_true]
  rw [thresholdCandidate_zero, getThreshold_setThreshold _ _ (by norm_num), float32Val_zero]

/-- On the threshold screen, in the `ReadThreshold` phase, with temperature 0,
a conversion result of 0 makes the iteration divide by zero. -/
theorem mainLoopBody_zero_threshold (s : Sys) (h1 : s.state = State.ThresholdDisplay)
    (h2 : s.nextAcquisition = Acquisition.ReadThreshold) (h3 : s.temperature = 0) :
    mainLoopBody 0 s = .error .divisionByZero := by
  apply handlePWM_fault _ 0 _ (acquire_zero_threshold s h1 h2)
  have : (acquire 0 s).temperature = 0 := by
    simp only [acquire, h2]
    split_ifs
    exact h3
  rw [this]
  exact pwmRatio_zero_zero

/-- Claim C2, the code at the failing input: from startup with the threshold
20.0 in the EEPROM, one tick, a button-2 edge with the pin low and one loop
iteration sampling 0 lead without fault to a state on the threshold screen
with temperature 0; the next iteration, sampling 0 again, persists the
threshold 0.0 and then evaluates `(temperature * 255.0) / getThreshold()` with
a zero divisor. -/
theorem threshold_zero_division :
    ∃ s, run [.tick, .button2 0, .loop 0] (startup mem20) = .ok s ∧
      s.state = State.ThresholdDisplay ∧ s.nextAcquisition = Acquisition.ReadThreshold ∧
      s.temperature = 0 ∧ s.OCR2A = 255 ∧
      float32Val (getThreshold (acquire 0 s).eeprom) = some 0 ∧
      mainLoopBody 0 s = .error .divisionByZero ∧
      run [.tick, .button2 0, .loop 0, .loop 0] (startup mem20) = .error .divisionByZero := by
  have hv : float32Val (getThreshold
      (acquire 0 (INT0_vect 0 (TIMER1_OVF_vect (startup mem20)))).eeprom) = some 20 := by
    show float32Val (getThreshold mem20) = some 20
    rw [mem20, getThreshold_setThreshold _ _ (by norm_num), float32Val_twenty]
  have hd : pwmRatio (acquire 0 (INT0_vect 0 (TIMER1_OVF_vect (startup mem20)))).temperature 20 =
      .ok 255 := by
    show pwmRatio (convertTemperature (ADCRead 0)) 20 = .ok 255
    rw [convertTemperature_zero, pwmRatio_zero_twenty]
  have e1 := handlePWM_eq _ 20 255 hv hd
  have e2 : run [.tick, .button2 0, .loop 0] (startup mem20) =
      (handlePWM (acquire 0 (INT0_vect 0 (TIMER1_OVF_vect (startup mem20)))) >>= run []) := rfl
  have e3 : run [.tick, .button2 0, .loop 0, .loop 0] (startup mem20) =
      (handlePWM (acquire 0 (INT0_vect 0 (TIMER1_OVF_vect (startup mem20)))) >>=
        fun s => mainLoopBody 0 s >>= run []) := rfl
  have hs : (acquire 0 (INT0_vect 0 (TIMER1_OVF_vect (startup mem20)))).state =
      State.ThresholdDisplay := by decide
  obtain ⟨S, hS, h1, h2, h3, h4⟩ : ∃ S : Sys,
      handlePWM (acquire 0 (INT0_vect 0 (TIMER1_OVF_vect (startup mem20)))) = .ok S ∧
      S.state = State.ThresholdDisplay ∧ S.nextAcquisition = Acquisition.ReadThreshold ∧
      S.temperature = 0 ∧ S.OCR2A = 255 :=
    ⟨_, e1, hs, rfl, convertTemperature_zero, rfl⟩
  rw [hS] at e2 e3
  have hf := mainLoopBody_zero_threshold S h1 h2 h3
  refine ⟨S, e2, h1, h2, h3, h4, acquire_zero_threshold S h1 h2, hf, ?_⟩
  rw [e3]
  show (mainLoopBody 0 S >>= run []) = _
  rw [hf]
  rfl

end Thermostat
